import Mathlib

/-!
Shallow embedding of the session-state manager of the Reusable-Agentic-Auth
repository (plugin-solana-auth): the cipher utilities (`encryptData`,
`decryptData` from `utils/encryption.ts`), the storage layer (`storeData`,
`retrieveData` from `utils/storage.ts`) and the session manager
(`AuthStateManager` from `services/authStateManager.ts`).

Modelling conventions:
- JS strings are `List Nat` of Unicode code points; byte buffers are
  `List Nat` with every element `< 256`.  `Buffer.from(s)` (UTF-8) is
  embedded as `utf8Encode`.
- `Date.now()` is an explicit `now : Int` parameter, constant for the
  duration of one operation.
- The `randomBytes(16)` initialization vector is an explicit `iv`
  parameter threaded through the operations that consume randomness.
- Thrown JS exceptions are `Except` errors.  Because a JS exception leaves
  earlier mutations of `this.authCache` and of the backing store in place,
  errors carry the manager state at the moment of the throw.
- Node's `aes-256-cbc` primitive (`createCipheriv`/`createDecipheriv` with
  `update`/`final`) is an external library capability; it is represented by
  a structure `AesCbc` bundling any keyed transform whose decryption
  inverts encryption under the same key/IV and whose output is a byte
  sequence.  Everything the repository itself does around the primitive
  (key normalization, IV handling, hex encoding, the `iv:ciphertext`
  envelope, error propagation) is embedded concretely.
- `JSON.stringify`/`JSON.parse` restricted to `AuthState` values are an
  external platform capability; they are modelled by a concrete injective
  byte serialization `serializeAuthState` with `parseAuthState` a partial
  inverse that fails on payloads the serializer cannot produce.
-/

/-- Code points of a Lean string literal (ASCII literals only are used),
used to transcribe the string constants of the source. -/
def strBytes (s : String) : List Nat :=
  s.toList.map Char.toNat

/-! ## Model of JSON serialization of an `AuthState`

A length-prefixed injective byte encoding standing in for
`JSON.stringify`, together with a parser standing in for
`JSON.parse (...) as AuthState` (which fails on payloads that do not
decode). -/

/-- Decimal digits of `n` (code points `48`–`57`), most significant first,
prepended to `acc`.  The first argument is structural fuel (`n` itself is
always enough), keeping the definition kernel-computable. -/
def natDigitsAux : Nat → Nat → List Nat → List Nat
  | 0, _, acc => acc
  | fuel + 1, n, acc =>
    if n = 0 then acc else natDigitsAux fuel (n / 10) ((n % 10 + 48) :: acc)

/-- Length field: the decimal numeral of `n` followed by a terminator
byte `44` (a comma). -/
def encNat (n : Nat) : List Nat :=
  (if n = 0 then [48] else natDigitsAux n n []) ++ [44]

def parseNatAux : Nat → List Nat → Option (Nat × List Nat)
  | _, [] => none
  | acc, c :: cs =>
    if c = 44 then some (acc, cs)
    else if 48 ≤ c ∧ c ≤ 57 then parseNatAux (acc * 10 + (c - 48)) cs
    else none

def parseNatF (s : List Nat) : Option (Nat × List Nat) :=
  parseNatAux 0 s

/-- Signed integer field: a sign byte (`45` minus, `43` plus) followed by
the numeral of the absolute value. -/
def encInt (i : Int) : List Nat :=
  if i < 0 then 45 :: encNat (-i).toNat else 43 :: encNat i.toNat

def parseIntF (s : List Nat) : Option (Int × List Nat) :=
  if s.headI = 45 then (parseNatF s.tail).map (fun p => (-(p.1 : Int), p.2))
  else if s.headI = 43 then (parseNatF s.tail).map (fun p => ((p.1 : Int), p.2))
  else none

/-- String field: length-prefixed raw code points. -/
def encBytes (s : List Nat) : List Nat :=
  encNat s.length ++ s

def parseBytesF (s : List Nat) : Option (List Nat × List Nat) :=
  match parseNatF s with
  | none => none
  | some (n, rest) =>
    if n ≤ rest.length then some (rest.take n, rest.drop n) else none

/-- Optional string field (the `refreshToken` field may be absent). -/
def encOptBytes : Option (List Nat) → List Nat
  | none => encNat 0
  | some s => encNat 1 ++ encBytes s

def parseOptBytesF (s : List Nat) : Option (Option (List Nat) × List Nat) :=
  match parseNatF s with
  | none => none
  | some (n, rest) =>
    if n = 0 then some (none, rest)
    else if n = 1 then (parseBytesF rest).map (fun p => (some p.1, p.2))
    else none

/-- Array-of-strings field (the `permissions` field). -/
def encBytesList (l : List (List Nat)) : List Nat :=
  encNat l.length ++ l.foldr (fun s acc => encBytes s ++ acc) []

def parseBytesN : Nat → List Nat → Option (List (List Nat) × List Nat)
  | 0, s => some ([], s)
  | n + 1, s =>
    match parseBytesF s with
    | none => none
    | some (x, s1) => (parseBytesN n s1).map (fun p => (x :: p.1, p.2))

def parseBytesListF (s : List Nat) : Option (List (List Nat) × List Nat) :=
  match parseNatF s with
  | none => none
  | some (n, rest) => parseBytesN n rest

/-- The `AuthState` interface of `services/authStateManager.ts`:
`walletPublicKey`, `signature`, `timestamp`, `expiresAt`, optional
`refreshToken`, `permissions`, `network`. -/
structure AuthState where
  walletPublicKey : List Nat
  signature : List Nat
  timestamp : Int
  expiresAt : Int
  refreshToken : Option (List Nat)
  permissions : List (List Nat)
  network : List Nat
deriving DecidableEq, Repr

/-- Model of `JSON.stringify(authState)` followed by UTF-8 encoding: an
injective byte encoding of the seven fields in declaration order. -/
def serializeAuthState (a : AuthState) : List Nat :=
  encBytes a.walletPublicKey ++ encBytes a.signature ++ encInt a.timestamp ++
    encInt a.expiresAt ++ encOptBytes a.refreshToken ++
    encBytesList a.permissions ++ encBytes a.network

def parseAuthStateFields (s : List Nat) : Option (AuthState × List Nat) :=
  match parseBytesF s with
  | none => none
  | some (w, s1) =>
    match parseBytesF s1 with
    | none => none
    | some (sg, s2) =>
      match parseIntF s2 with
      | none => none
      | some (ts, s3) =>
        match parseIntF s3 with
        | none => none
        | some (ex, s4) =>
          match parseOptBytesF s4 with
          | none => none
          | some (rt, s5) =>
            match parseBytesListF s5 with
            | none => none
            | some (pm, s6) =>
              match parseBytesF s6 with
              | none => none
              | some (nw, s7) =>
                some (⟨w, sg, ts, ex, rt, pm, nw⟩, s7)

/-- Model of `JSON.parse(decryptedState) as AuthState`: succeeds exactly on
full serializations produced by `serializeAuthState`. -/
def parseAuthState (s : List Nat) : Option AuthState :=
  match parseAuthStateFields s with
  | some (a, []) => some a
  | _ => none

/-! ## Cipher layer: `utils/encryption.ts` -/

/-- Number of UTF-8 bytes of one Unicode scalar value. -/
def utf8EncodeChar (c : Nat) : List Nat :=
  if c < 128 then [c]
  else if c < 2048 then [192 + c / 64, 128 + c % 64]
  else if c < 65536 then [224 + c / 4096, 128 + c / 64 % 64, 128 + c % 64]
  else [240 + c / 262144 % 8, 128 + c / 4096 % 64, 128 + c / 64 % 64, 128 + c % 64]

/-- Model of `Buffer.from(string)`: UTF-8 encoding of the code points. -/
def utf8Encode (s : List Nat) : List Nat :=
  (s.map utf8EncodeChar).flatten

/-- Model of `Buffer.from(key.padEnd(32).slice(0, 32))` from `encryptData` /
`decryptData`: pad the string with spaces (code point 32) to 32
characters, keep the first 32 characters, UTF-8 encode.  Note the
padding and slicing count characters while `createCipheriv` counts
bytes. -/
def normalizeKey (key : List Nat) : List Nat :=
  utf8Encode ((key ++ List.replicate (32 - key.length) 32).take 32)

/-- Lowercase hexadecimal digit (as a code point), as produced by
`Buffer.toString("hex")` / `cipher.update(..., "hex")`. -/
def hexDigit (n : Nat) : Nat :=
  if n < 10 then 48 + n else 87 + n

def hexEncodeByte (b : Nat) : List Nat :=
  [hexDigit (b / 16), hexDigit (b % 16)]

def hexEncode (bs : List Nat) : List Nat :=
  (bs.map hexEncodeByte).flatten

/-- Value of one hexadecimal digit code point, `none` on a non-hex
character. -/
def hexVal (c : Nat) : Option Nat :=
  if 48 ≤ c ∧ c ≤ 57 then some (c - 48)
  else if 97 ≤ c ∧ c ≤ 102 then some (c - 87)
  else if 65 ≤ c ∧ c ≤ 70 then some (c - 55)
  else none

/-- Model of `Buffer.from(s, "hex")`: decodes digit pairs, stopping at the
first character that is not a hexadecimal digit (so a malformed IV field
decodes to a short buffer, as in node). -/
def hexDecode : List Nat → List Nat
  | c1 :: c2 :: rest =>
    match hexVal c1, hexVal c2 with
    | some h, some l => (16 * h + l) :: hexDecode rest
    | _, _ => []
  | _ => []

/-- Model of node's `aes-256-cbc` primitive
(`createCipheriv`/`createDecipheriv` plus `update`/`final`): an external
library capability, represented by any keyed transform on byte sequences
whose decryption inverts encryption under the same key and IV.  The
repository's own code around the primitive is embedded concretely in
`encryptData` / `decryptData` below. -/
structure AesCbc where
  enc : List Nat → List Nat → List Nat → List Nat
  dec : List Nat → List Nat → List Nat → Option (List Nat)
  enc_bytes : ∀ k iv p, (∀ b ∈ p, b < 256) → ∀ b ∈ enc k iv p, b < 256
  dec_enc : ∀ k iv p, dec k iv (enc k iv p) = some p

/-- A degenerate instantiation of the primitive used to evaluate the
development on concrete inputs. -/
def idCipher : AesCbc where
  enc := fun _ _ p => p
  dec := fun _ _ c => some c
  enc_bytes := fun _ _ _ h => h
  dec_enc := fun _ _ _ => rfl

/-- Errors thrown by the crypto layer: `createCipheriv`/`createDecipheriv`
reject a key that is not 32 bytes or an IV that is not 16 bytes;
destructuring a one-part envelope leaves the ciphertext `undefined`
(a throw at `decipher.update`); `decipher.final` rejects a ciphertext the
transform cannot decrypt. -/
inductive CryptoError where
  | invalidKeyLength
  | invalidIv
  | missingCiphertext
  | badDecrypt
deriving DecidableEq, Repr

/-- Embedding of `encryptData(data, key)` from `utils/encryption.ts`: normalize the key,
encrypt under the given IV, return `iv.toString("hex") + ":" + encrypted`
(58 is `":"`).  The IV (`randomBytes(16)`) is the explicit `iv`
parameter. -/
def encryptData (C : AesCbc) (data key iv : List Nat) :
    Except CryptoError (List Nat) :=
  let nk := normalizeKey key
  if nk.length ≠ 32 then .error .invalidKeyLength
  else if iv.length ≠ 16 then .error .invalidIv
  else .ok (hexEncode iv ++ 58 :: hexEncode (C.enc nk iv data))

/-- Model of `String.prototype.split(":")`: all colon-separated segments.  The
result is always non-empty, so prepending a non-colon character to the
first segment is phrased with `headI`/`tail`. -/
def splitColon : List Nat → List (List Nat)
  | [] => [[]]
  | c :: cs =>
    if c = 58 then [] :: splitColon cs
    else (c :: (splitColon cs).headI) :: (splitColon cs).tail

/-- Embedding of `decryptData(encryptedData, key)` from `utils/encryption.ts`: split the
envelope at `":"`, hex-decode the IV, normalize the key, decrypt; every
failure is a thrown error. -/
def decryptData (C : AesCbc) (encryptedData key : List Nat) :
    Except CryptoError (List Nat) :=
  let nk := normalizeKey key
  let parts := splitColon encryptedData
  let iv := hexDecode parts.headI
  if nk.length ≠ 32 then .error .invalidKeyLength
  else if iv.length ≠ 16 then .error .invalidIv
  else
    match parts[1]? with
    | none => .error .missingCiphertext
    | some encHex =>
      match C.dec nk iv (hexDecode encHex) with
      | some p => .ok p
      | none => .error .badDecrypt

/-! ## Storage layer: `utils/storage.ts` -/

/-- Association-list operations standing in for JS object property access
on `this.authCache`, for one file per key under `data/auth`, and for the
database adapter's `upsert`/`delete`/`findOne` keyed rows. -/
def lookupA {α : Type} : List (List Nat × α) → List Nat → Option α
  | [], _ => none
  | (k, v) :: rest, key => if k = key then some v else lookupA rest key

def insertA {α : Type} : List (List Nat × α) → List Nat → α → List (List Nat × α)
  | [], key, v => [(key, v)]
  | (k, w) :: rest, key, v =>
    if k = key then (key, v) :: rest else (k, w) :: insertA rest key v

def removeA {α : Type} (l : List (List Nat × α)) (key : List Nat) :
    List (List Nat × α) :=
  l.filter (fun p => p.1 ≠ key)

/-- The configuration surface read through `runtime.getSetting`, plus the
presence of `runtime.databaseAdapter`.
- `encryptionKey`, `storageType`: raw string settings (`none` = unset).
- `autoRefresh`: `some true` exactly when the setting holds the boolean
  `true` (the source compares with `=== true`, so any other value —
  including the string `"true"` — behaves as `some false`/`none`).
- `authStateTTL`: the numeric value of the TTL setting as read by
  `parseInt` (`none` = setting absent or empty; non-numeric settings are
  outside the model). -/
structure Runtime where
  encryptionKey : Option (List Nat)
  storageType : Option (List Nat)
  autoRefresh : Option Bool
  authStateTTL : Option Int
  hasDatabaseAdapter : Bool
deriving DecidableEq, Repr

/-- The mutable world the manager touches: the in-memory `authCache`, the
file-backend directory `data/auth` and the database table `auth_state`. -/
structure ManagerState where
  authCache : List (List Nat × AuthState)
  files : List (List Nat × List Nat)
  db : List (List Nat × List Nat)
deriving DecidableEq, Repr

inductive StorageError where
  | unsupportedStorageType
  | noDatabaseAdapter
deriving DecidableEq, Repr

/-- Embedding of `storeData(key, data, storageType, runtime)` from `utils/storage.ts`:
dispatch on the storage-type string; `memory` is a no-op; an unknown
string throws `Unsupported storage type` at call time; the database
branch throws `No database adapter available` when the runtime has
none.  `data = none` deletes (idempotently). -/
def storeData (key : List Nat) (data : Option (List Nat))
    (storageType : List Nat) (r : Runtime) (st : ManagerState) :
    Except StorageError ManagerState :=
  if storageType = strBytes "encrypted-file" then
    .ok (match data with
      | none => { st with files := removeA st.files key }
      | some d => { st with files := insertA st.files key d })
  else if storageType = strBytes "database" then
    if r.hasDatabaseAdapter then
      .ok (match data with
        | none => { st with db := removeA st.db key }
        | some d => { st with db := insertA st.db key d })
    else .error .noDatabaseAdapter
  else if storageType = strBytes "memory" then .ok st
  else .error .unsupportedStorageType

/-- Embedding of `retrieveData(key, storageType, runtime)` from `utils/storage.ts`:
the file backend returns `null` on a missing file, the `memory` backend
always returns `null`, the database backend requires an adapter, and an
unknown storage type throws at call time. -/
def retrieveData (key storageType : List Nat) (r : Runtime)
    (st : ManagerState) : Except StorageError (Option (List Nat)) :=
  if storageType = strBytes "encrypted-file" then .ok (lookupA st.files key)
  else if storageType = strBytes "database" then
    if r.hasDatabaseAdapter then .ok (lookupA st.db key)
    else .error .noDatabaseAdapter
  else if storageType = strBytes "memory" then .ok none
  else .error .unsupportedStorageType

/-! ## Session manager: `services/authStateManager.ts` -/

/-- Union of the exceptions that can cross the manager's method
boundaries. -/
inductive JsError where
  | crypto : CryptoError → JsError
  | storage : StorageError → JsError
deriving DecidableEq, Repr

/-- Embedding of `AuthStateManager.initialize(runtime)`: it stores the runtime and logs;
it performs no validation of any setting, so it never fails. -/
def initService (r : Runtime) : Except JsError Runtime :=
  .ok r

/-- Reading of `this.runtime.getSetting("ENCRYPTION_KEY") || "default-key"`
(`||` also replaces an empty string). -/
def getKeySetting (r : Runtime) : List Nat :=
  match r.encryptionKey with
  | some k => if k = [] then strBytes "default-key" else k
  | none => strBytes "default-key"

/-- Reading of `this.runtime.getSetting("authStateStorageType") || "encrypted-file"`. -/
def getStorageType (r : Runtime) : List Nat :=
  match r.storageType with
  | some t => if t = [] then strBytes "encrypted-file" else t
  | none => strBytes "encrypted-file"

/-- Reading of `this.runtime.getSetting("autoRefresh") === true`. -/
def autoRefreshOn (r : Runtime) : Bool :=
  r.autoRefresh = some true

/-- Reading of `parseInt(this.runtime.getSetting("authStateTTL") || "86400", 10)`. -/
def ttlOf (r : Runtime) : Int :=
  match r.authStateTTL with
  | some t => t
  | none => 86400

/-- Embedding of `AuthStateManager.isValid(authState)`: `Date.now() < authState.expiresAt`. -/
def isValid (now : Int) (a : AuthState) : Bool :=
  now < a.expiresAt

/-- Embedding of `AuthStateManager.saveAuthState(serviceKey, authState)`: cache first,
then encrypt, then write through the backend.  A throw from `encryptData`
or `storeData` propagates with the cache already overwritten. -/
def saveAuthState (C : AesCbc) (r : Runtime) (key : List Nat) (a : AuthState)
    (iv : List Nat) (st : ManagerState) :
    Except (JsError × ManagerState) ManagerState :=
  let st1 := { st with authCache := insertA st.authCache key a }
  match encryptData C (serializeAuthState a) (getKeySetting r) iv with
  | .error e => .error (.crypto e, st1)
  | .ok blob =>
    match storeData key (some blob) (getStorageType r) r st1 with
    | .error e => .error (.storage e, st1)
    | .ok st2 => .ok st2

/-- The record `{ ...authState, timestamp: Date.now(), expiresAt:
Date.now() + ttl }` built inside `refreshAuthState`. -/
def refreshedRecord (r : Runtime) (now : Int) (a : AuthState) : AuthState :=
  { a with timestamp := now, expiresAt := now + ttlOf r * 1000 }

/-- Embedding of `AuthStateManager.refreshAuthState(serviceKey, authState)`: re-stamp
the timestamps, persist via `saveAuthState`, return the new record; the
surrounding `try/catch` swallows every failure and returns `null`, with
whatever mutations already happened left in place. -/
def refreshAuthState (C : AesCbc) (r : Runtime) (now : Int) (key : List Nat)
    (a : AuthState) (iv : List Nat) (st : ManagerState) :
    Option AuthState × ManagerState :=
  let refreshed := refreshedRecord r now a
  match saveAuthState C r key refreshed iv st with
  | .ok st2 => (some refreshed, st2)
  | .error (_, st2) => (none, st2)

/-- The storage path of `AuthStateManager.loadAuthState` (everything after
the cache check): retrieve, decrypt — note the decryption call sits
outside the `try` block, so its throw propagates — then parse inside the
`try` (a parse failure is caught and becomes `null`), validate, cache,
or attempt a refresh when the record carries a non-empty `refreshToken`
and the `autoRefresh` setting is the boolean `true`. -/
def loadFromStorage (C : AesCbc) (r : Runtime) (now : Int) (key iv : List Nat)
    (st : ManagerState) :
    Except (JsError × ManagerState) (Option AuthState × ManagerState) :=
  match retrieveData key (getStorageType r) r st with
  | .error e => .error (.storage e, st)
  | .ok none => .ok (none, st)
  | .ok (some blob) =>
    match decryptData C blob (getKeySetting r) with
    | .error e => .error (.crypto e, st)
    | .ok plain =>
      match parseAuthState plain with
      | none => .ok (none, st)
      | some a =>
        if isValid now a then
          .ok (some a, { st with authCache := insertA st.authCache key a })
        else if (match a.refreshToken with
                 | some rt => !rt.isEmpty
                 | none => false) && autoRefreshOn r then
          .ok (refreshAuthState C r now key a iv st)
        else .ok (none, st)

/-- Embedding of `AuthStateManager.loadAuthState(serviceKey)`: return a valid cached
record immediately (an invalid cached record is left in place and the
code falls through to storage), otherwise go through storage. -/
def loadAuthState (C : AesCbc) (r : Runtime) (now : Int) (key iv : List Nat)
    (st : ManagerState) :
    Except (JsError × ManagerState) (Option AuthState × ManagerState) :=
  match lookupA st.authCache key with
  | some cached =>
    if isValid now cached then .ok (some cached, st)
    else loadFromStorage C r now key iv st
  | none => loadFromStorage C r now key iv st

/-- Embedding of `AuthStateManager.clearAuthState(serviceKey)`: drop the cache entry and
store `null` through the backend. -/
def clearAuthState (r : Runtime) (key : List Nat) (st : ManagerState) :
    Except (JsError × ManagerState) ManagerState :=
  let st1 := { st with authCache := removeA st.authCache key }
  match storeData key none (getStorageType r) r st1 with
  | .error e => .error (.storage e, st1)
  | .ok st2 => .ok st2

/-! ## Well-formedness (byte-valued strings) -/

/-- Every element of the list is a byte. -/
def wfBytes (s : List Nat) : Bool :=
  s.all (fun b => decide (b < 256))

/-- All string-valued fields of the record hold byte values (true of every
record round-tripped through UTF-8 text). -/
def wfAuthState (a : AuthState) : Bool :=
  wfBytes a.walletPublicKey && wfBytes a.signature &&
    (match a.refreshToken with
     | none => true
     | some s => wfBytes s) &&
    a.permissions.all wfBytes && wfBytes a.network

/-! ## Decidable equality of results, for evaluating the model on
concrete inputs -/

instance {e a : Type} [DecidableEq e] [DecidableEq a] :
    DecidableEq (Except e a) := fun x y =>
  match x, y with
  | .ok u, .ok v =>
    if h : u = v then isTrue (by rw [h])
    else isFalse (fun hc => h (Except.ok.inj hc))
  | .error u, .error v =>
    if h : u = v then isTrue (by rw [h])
    else isFalse (fun hc => h (Except.error.inj hc))
  | .ok _, .error _ => isFalse (fun hc => Except.noConfusion hc)
  | .error _, .ok _ => isFalse (fun hc => Except.noConfusion hc)

/-- Envelope that `encryptData` produces on success. -/
def envelopeOf (C : AesCbc) (key iv p : List Nat) : List Nat :=
  hexEncode iv ++ 58 :: hexEncode (C.enc (normalizeKey key) iv p)

/-- Composite `decrypt(encrypt(P, K), K)` of the spec's round-trip
property: a throw inside `encryptData` propagates. -/
def encThenDec (C : AesCbc) (p key iv : List Nat) :
    Except CryptoError (List Nat) :=
  match encryptData C p key iv with
  | .ok env => decryptData C env key
  | .error e => .error e

/-! ## Concrete sample data for evaluating the model -/

def sampleKey : List Nat := [107]

def sampleIv : List Nat := List.replicate 16 0

/-- Record that is expired at every time `now ≥ 1`, carrying a non-empty
refresh token. -/
def recExpired : AuthState := ⟨[112], [115], 1, 1, some [116], [[113]], [110]⟩

/-- Record that is still valid at time 1 (`expiresAt = 10`). -/
def recValid : AuthState := ⟨[112], [115], 1, 10, some [116], [[113]], [110]⟩

/-- File blob holding a record encrypted with `idCipher` under any key:
the hex envelope around the serialized record. -/
def plainEnv (a : AuthState) : List Nat :=
  hexEncode sampleIv ++ 58 :: hexEncode (serializeAuthState a)

/-- Blob that decrypts fine but whose payload does not parse (one stray
trailing byte after the serialized record). -/
def blobBadJson : List Nat :=
  hexEncode sampleIv ++ 58 :: hexEncode (serializeAuthState recValid ++ [0])

def emptyState : ManagerState := ⟨[], [], []⟩

/-- Runtime with every setting absent: default key, file backend,
`autoRefresh` unset, default TTL, no database adapter. -/
def rtPlain : Runtime := ⟨none, none, none, none, false⟩

/-- Runtime with the `autoRefresh` setting holding the boolean `true` and
a TTL setting of 1 second. -/
def rtAuto : Runtime := ⟨none, none, some true, some 1, false⟩

/-- Runtime selecting the database backend without a database adapter,
with auto refresh on. -/
def rtDbNoAdapter : Runtime :=
  ⟨none, some (strBytes "database"), some true, some 1, false⟩

/-- Runtime selecting the memory backend, with auto refresh on. -/
def rtMemory : Runtime :=
  ⟨none, some (strBytes "memory"), some true, some 1, false⟩

/-- Runtime configured with an unrecognized storage backend identifier. -/
def rtBogus : Runtime := ⟨none, some (strBytes "bogus"), none, none, false⟩

theorem wfBytes_iff {s : List Nat} : wfBytes s = true ↔ ∀ b ∈ s, b < 256 := by
  simp [wfBytes, List.all_eq_true]

/-! ## Round-trip lemmas for the serialization model -/

theorem natDigitsAux_acc (fuel : Nat) :
    ∀ (n : Nat) (acc : List Nat),
      natDigitsAux fuel n acc = natDigitsAux fuel n [] ++ acc := by
  induction fuel with
  | zero => intro n acc; simp [natDigitsAux]
  | succ f ih =>
    intro n acc
    by_cases hn : n = 0
    · simp [natDigitsAux, hn]
    · simp only [natDigitsAux, if_neg hn]
      rw [ih (n / 10) ((n % 10 + 48) :: acc), ih (n / 10) [n % 10 + 48]]
      simp

theorem parseNatAux_natDigitsAux :
    ∀ (fuel n : Nat), n ≤ fuel → ∀ (acc : Nat) (s : List Nat),
      parseNatAux acc (natDigitsAux fuel n [] ++ s) =
        parseNatAux (acc * 10 ^ (natDigitsAux fuel n []).length + n) s := by
  intro fuel
  induction fuel with
  | zero =>
    intro n hn acc s
    have hn0 : n = 0 := by omega
    subst hn0
    simp [natDigitsAux]
  | succ f ih =>
    intro n hn acc s
    by_cases hn0 : n = 0
    · subst hn0; simp [natDigitsAux]
    · have hstep : natDigitsAux (f + 1) n [] =
          natDigitsAux f (n / 10) [] ++ [n % 10 + 48] := by
        simp only [natDigitsAux, if_neg hn0]
        rw [natDigitsAux_acc]
      rw [hstep, List.append_assoc, List.singleton_append,
        ih (n / 10) (by omega) acc ((n % 10 + 48) :: s)]
      rw [show parseNatAux (acc * 10 ^ (natDigitsAux f (n / 10) []).length
            + n / 10) ((n % 10 + 48) :: s) =
          parseNatAux ((acc * 10 ^ (natDigitsAux f (n / 10) []).length
            + n / 10) * 10 + (n % 10 + 48 - 48)) s by
        simp only [parseNatAux]
        rw [if_neg (by omega), if_pos (by omega)]]
      congr 1
      rw [List.length_append, List.length_singleton, pow_succ,
        ← Nat.mul_assoc]
      omega

theorem parseNatF_encNat (n : Nat) (rest : List Nat) :
    parseNatF (encNat n ++ rest) = some (n, rest) := by
  by_cases hn : n = 0
  · subst hn
    simp only [encNat, if_pos rfl, List.cons_append, List.singleton_append,
      parseNatF, parseNatAux]
    rw [if_neg (by omega), if_pos (by omega)]
    simp [parseNatAux]
  · have h : encNat n ++ rest = natDigitsAux n n [] ++ (44 :: rest) := by
      simp [encNat, if_neg hn]
    rw [h, parseNatF, parseNatAux_natDigitsAux n n le_rfl 0 (44 :: rest)]
    simp [parseNatAux]

theorem parseIntF_encInt (i : Int) (rest : List Nat) :
    parseIntF (encInt i ++ rest) = some (i, rest) := by
  by_cases hi : i < 0
  · have h : encInt i ++ rest = 45 :: (encNat (-i).toNat ++ rest) := by
      simp [encInt, if_pos hi]
    rw [h]
    simp only [parseIntF, List.headI, List.tail_cons, if_pos rfl,
      parseNatF_encNat, Option.map_some']
    have hcast : ((-i).toNat : Int) = -i := Int.toNat_of_nonneg (by omega)
    rw [hcast, neg_neg]
    simp
  · have h : encInt i ++ rest = 43 :: (encNat i.toNat ++ rest) := by
      simp [encInt, if_neg hi]
    rw [h]
    simp only [parseIntF, List.headI, List.tail_cons,
      if_neg (by omega : (43 : Nat) ≠ 45), if_pos rfl, parseNatF_encNat,
      Option.map_some']
    have hcast : (i.toNat : Int) = i := Int.toNat_of_nonneg (by omega)
    rw [hcast]
    simp

theorem parseBytesF_encBytes (s rest : List Nat) :
    parseBytesF (encBytes s ++ rest) = some (s, rest) := by
  have h : encBytes s ++ rest = encNat s.length ++ (s ++ rest) := by
    simp [encBytes]
  rw [h]
  simp only [parseBytesF, parseNatF_encNat]
  rw [if_pos (by simp)]
  rw [List.take_left, List.drop_left]

theorem parseOptBytesF_encOptBytes (o : Option (List Nat)) (rest : List Nat) :
    parseOptBytesF (encOptBytes o ++ rest) = some (o, rest) := by
  cases o with
  | none => simp [encOptBytes, parseOptBytesF, parseNatF_encNat]
  | some s =>
    have h : encOptBytes (some s) ++ rest = encNat 1 ++ (encBytes s ++ rest) := by
      simp [encOptBytes]
    rw [h]
    simp [parseOptBytesF, parseNatF_encNat, parseBytesF_encBytes]

theorem parseBytesN_enc (l : List (List Nat)) (rest : List Nat) :
    parseBytesN l.length (l.foldr (fun s acc => encBytes s ++ acc) [] ++ rest) =
      some (l, rest) := by
  induction l with
  | nil => simp [parseBytesN]
  | cons x xs ih =>
    have h : (x :: xs).foldr (fun s acc => encBytes s ++ acc) [] ++ rest =
        encBytes x ++ (xs.foldr (fun s acc => encBytes s ++ acc) [] ++ rest) := by
      simp
    rw [List.length_cons, h]
    simp [parseBytesN, parseBytesF_encBytes, ih]

theorem parseBytesListF_encBytesList (l : List (List Nat)) (rest : List Nat) :
    parseBytesListF (encBytesList l ++ rest) = some (l, rest) := by
  have h : encBytesList l ++ rest =
      encNat l.length ++ (l.foldr (fun s acc => encBytes s ++ acc) [] ++ rest) := by
    simp [encBytesList]
  rw [h]
  simp [parseBytesListF, parseNatF_encNat, parseBytesN_enc]

theorem parseAuthStateFields_serialize (a : AuthState) (rest : List Nat) :
    parseAuthStateFields (serializeAuthState a ++ rest) = some (a, rest) := by
  obtain ⟨w, sg, ts, ex, rt, pm, nw⟩ := a
  simp only [serializeAuthState, List.append_assoc]
  simp [parseAuthStateFields, parseBytesF_encBytes, parseIntF_encInt,
    parseOptBytesF_encOptBytes, parseBytesListF_encBytesList]

/-- The serialization model round-trips: the parser is a left inverse of
the serializer. -/
theorem parseAuthState_serialize (a : AuthState) :
    parseAuthState (serializeAuthState a) = some a := by
  have h := parseAuthStateFields_serialize a []
  rw [List.append_nil] at h
  simp [parseAuthState, h]

/-! ## Hex and envelope lemmas -/

theorem hexVal_hexDigit {n : Nat} (h : n < 16) : hexVal (hexDigit n) = some n := by
  unfold hexDigit hexVal
  split
  · rw [if_pos (by omega)]
    simp only [Option.some.injEq]
    omega
  · rw [if_neg (by omega), if_pos (by omega)]
    simp only [Option.some.injEq]
    omega

theorem hexDigit_ne_colon {n : Nat} (h : n < 16) : hexDigit n ≠ 58 := by
  unfold hexDigit
  split <;> omega

theorem hexEncode_cons (b : Nat) (bs : List Nat) :
    hexEncode (b :: bs) = hexDigit (b / 16) :: hexDigit (b % 16) :: hexEncode bs := by
  simp [hexEncode, hexEncodeByte]

theorem hexEncode_ne_colon {bs : List Nat} (hb : ∀ b ∈ bs, b < 256) :
    ∀ c ∈ hexEncode bs, c ≠ 58 := by
  induction bs with
  | nil => simp [hexEncode]
  | cons b bs ih =>
    have hb0 : b < 256 := hb b (by simp)
    intro c hc
    rw [hexEncode_cons] at hc
    simp only [List.mem_cons] at hc
    rcases hc with hc | hc | hc
    · exact hc ▸ hexDigit_ne_colon (by omega)
    · exact hc ▸ hexDigit_ne_colon (by omega)
    · exact ih (fun x hx => hb x (by simp [hx])) c hc

theorem hexDecode_hexEncode {bs : List Nat} (hb : ∀ b ∈ bs, b < 256) :
    hexDecode (hexEncode bs) = bs := by
  induction bs with
  | nil => simp [hexEncode, hexDecode]
  | cons b bs ih =>
    have hb0 : b < 256 := hb b (by simp)
    rw [hexEncode_cons]
    unfold hexDecode
    rw [hexVal_hexDigit (by omega), hexVal_hexDigit (by omega)]
    simp only
    rw [ih (fun x hx => hb x (by simp [hx]))]
    congr 1
    omega

theorem splitColon_no_colon {xs : List Nat} (h : ∀ c ∈ xs, c ≠ 58) :
    splitColon xs = [xs] := by
  induction xs with
  | nil => simp [splitColon]
  | cons c cs ih =>
    have hc : c ≠ 58 := h c (by simp)
    unfold splitColon
    rw [if_neg hc, ih (fun x hx => h x (by simp [hx]))]
    rfl

theorem splitColon_append {xs : List Nat} (h : ∀ c ∈ xs, c ≠ 58)
    (ys : List Nat) : splitColon (xs ++ 58 :: ys) = xs :: splitColon ys := by
  induction xs with
  | nil => simp [splitColon]
  | cons c cs ih =>
    have hc : c ≠ 58 := h c (by simp)
    have h2 : splitColon (cs.append (58 :: ys)) = cs :: splitColon ys :=
      ih (fun x hx => h x (by simp [hx]))
    simp only [List.cons_append, splitColon, if_neg hc, h2, List.headI,
      List.tail_cons]

/-- The repository's own cipher pipeline round-trips: given plaintext
bytes, a key normalizing to 32 bytes and a 16-byte random IV, `encryptData`
produces an envelope that `decryptData` maps back to the plaintext under
the same key. -/
theorem encryptData_ok_decryptData (C : AesCbc) (p key iv : List Nat)
    (hp : ∀ b ∈ p, b < 256) (hk : (normalizeKey key).length = 32)
    (hiv : iv.length = 16) (hivb : ∀ b ∈ iv, b < 256) :
    encryptData C p key iv =
      .ok (hexEncode iv ++ 58 :: hexEncode (C.enc (normalizeKey key) iv p)) ∧
    decryptData C
      (hexEncode iv ++ 58 :: hexEncode (C.enc (normalizeKey key) iv p)) key =
      .ok p := by
  have hct : ∀ b ∈ C.enc (normalizeKey key) iv p, b < 256 :=
    C.enc_bytes (normalizeKey key) iv p hp
  constructor
  · unfold encryptData
    rw [if_neg (by omega), if_neg (by omega)]
  · unfold decryptData
    rw [splitColon_append (hexEncode_ne_colon hivb)]
    rw [splitColon_no_colon (hexEncode_ne_colon hct)]
    simp only [List.headI]
    rw [hexDecode_hexEncode hivb]
    rw [if_neg (by omega), if_neg (by omega)]
    simp only [List.getElem?_cons_succ, List.getElem?_cons_zero]
    rw [hexDecode_hexEncode hct, C.dec_enc]

theorem encryptData_eq_ok (C : AesCbc) (p key iv : List Nat)
    (hk : (normalizeKey key).length = 32) (hiv : iv.length = 16) :
    encryptData C p key iv = .ok (envelopeOf C key iv p) := by
  unfold encryptData envelopeOf
  rw [if_neg (by omega), if_neg (by omega)]

theorem decryptData_envelopeOf (C : AesCbc) (p key iv : List Nat)
    (hp : ∀ b ∈ p, b < 256) (hk : (normalizeKey key).length = 32)
    (hiv : iv.length = 16) (hivb : ∀ b ∈ iv, b < 256) :
    decryptData C (envelopeOf C key iv p) key = .ok p :=
  (encryptData_ok_decryptData C p key iv hp hk hiv hivb).2

/-! ## Bytes of the serialization -/

theorem mem_natDigitsAux {b : Nat} :
    ∀ (fuel n : Nat) (acc : List Nat), b ∈ natDigitsAux fuel n acc →
      b ∈ acc ∨ (48 ≤ b ∧ b < 58) := by
  intro fuel
  induction fuel with
  | zero => intro n acc hb; exact Or.inl hb
  | succ f ih =>
    intro n acc hb
    simp only [natDigitsAux] at hb
    split at hb
    · exact Or.inl hb
    · rcases ih (n / 10) _ hb with h | h
      · simp only [List.mem_cons] at h
        rcases h with rfl | h
        · right; omega
        · exact Or.inl h
      · exact Or.inr h

theorem mem_encNat {b n : Nat} (hb : b ∈ encNat n) : b < 256 := by
  simp only [encNat, List.mem_append, List.mem_singleton] at hb
  rcases hb with hb | rfl
  · split at hb
    · simp only [List.mem_singleton] at hb
      omega
    · rcases mem_natDigitsAux n n [] hb with h | h
      · simp at h
      · omega
  · omega

theorem mem_encInt {b : Nat} {i : Int} (hb : b ∈ encInt i) : b < 256 := by
  unfold encInt at hb
  split at hb <;>
  · simp only [List.mem_cons] at hb
    rcases hb with rfl | hb
    · omega
    · exact mem_encNat hb

theorem mem_encBytes {b : Nat} {s : List Nat} (hs : ∀ x ∈ s, x < 256)
    (hb : b ∈ encBytes s) : b < 256 := by
  simp only [encBytes, List.mem_append] at hb
  rcases hb with hb | hb
  · exact mem_encNat hb
  · exact hs b hb

theorem mem_encOptBytes {b : Nat} {o : Option (List Nat)}
    (ho : ∀ s, o = some s → ∀ x ∈ s, x < 256) (hb : b ∈ encOptBytes o) :
    b < 256 := by
  cases o with
  | none => exact mem_encNat hb
  | some s =>
    simp only [encOptBytes, List.mem_append] at hb
    rcases hb with hb | hb
    · exact mem_encNat hb
    · exact mem_encBytes (ho s rfl) hb

theorem mem_foldr_encBytes {b : Nat} :
    ∀ {l : List (List Nat)}, (∀ s ∈ l, ∀ x ∈ s, x < 256) →
      b ∈ l.foldr (fun s acc => encBytes s ++ acc) [] → b < 256 := by
  intro l
  induction l with
  | nil => intro _ hb; simp at hb
  | cons s ss ih =>
    intro hl hb
    simp only [List.foldr_cons, List.mem_append] at hb
    rcases hb with hb | hb
    · exact mem_encBytes (hl s (by simp)) hb
    · exact ih (fun t ht => hl t (by simp [ht])) hb

theorem mem_encBytesList {b : Nat} {l : List (List Nat)}
    (hl : ∀ s ∈ l, ∀ x ∈ s, x < 256) (hb : b ∈ encBytesList l) : b < 256 := by
  simp only [encBytesList, List.mem_append] at hb
  rcases hb with hb | hb
  · exact mem_encNat hb
  · exact mem_foldr_encBytes hl hb

/-- A well-formed record serializes to bytes. -/
theorem serializeAuthState_bytes {a : AuthState} (h : wfAuthState a = true) :
    ∀ b ∈ serializeAuthState a, b < 256 := by
  obtain ⟨w, sg, ts, ex, rt, pm, nw⟩ := a
  simp only [wfAuthState, Bool.and_eq_true] at h
  obtain ⟨⟨⟨⟨hw, hsg⟩, hrt⟩, hpm⟩, hnw⟩ := h
  intro b hb
  simp only [serializeAuthState, List.append_assoc, List.mem_append] at hb
  rcases hb with hb | hb | hb | hb | hb | hb | hb
  · exact mem_encBytes (wfBytes_iff.mp hw) hb
  · exact mem_encBytes (wfBytes_iff.mp hsg) hb
  · exact mem_encInt hb
  · exact mem_encInt hb
  · refine mem_encOptBytes (fun s hs x hx => ?_) hb
    subst hs
    exact wfBytes_iff.mp hrt x hx
  · refine mem_encBytesList (fun s hs x hx => ?_) hb
    have := List.all_eq_true.mp hpm s hs
    exact wfBytes_iff.mp this x hx
  · exact mem_encBytes (wfBytes_iff.mp hnw) hb

/-! ## UTF-8 length of ASCII strings -/

theorem utf8Encode_length_ascii {l : List Nat} (h : ∀ c ∈ l, c < 128) :
    (utf8Encode l).length = l.length := by
  induction l with
  | nil => simp [utf8Encode]
  | cons c cs ih =>
    have hc : c < 128 := h c (by simp)
    simp only [utf8Encode, List.map_cons, List.flatten_cons, List.length_append,
      List.length_cons]
    rw [show utf8EncodeChar c = [c] by simp [utf8EncodeChar, hc]]
    have := ih (fun x hx => h x (by simp [hx]))
    simp only [utf8Encode] at this
    simp [this]
    omega

/-! ## Association-list lemmas -/

theorem lookupA_insertA_self {α : Type} (l : List (List Nat × α))
    (k : List Nat) (v : α) : lookupA (insertA l k v) k = some v := by
  induction l with
  | nil => simp [insertA, lookupA]
  | cons p rest ih =>
    obtain ⟨k1, v1⟩ := p
    by_cases hk : k1 = k
    · simp [insertA, hk, lookupA]
    · simp [insertA, hk, lookupA, ih]

/-! ## Key normalization on ASCII key material -/

theorem normalizeKey_length_ascii {key : List Nat}
    (hk : ∀ c ∈ key.take 32, c < 128) : (normalizeKey key).length = 32 := by
  unfold normalizeKey
  have hmem : ∀ c ∈ (key ++ List.replicate (32 - key.length) 32).take 32,
      c < 128 := by
    intro c hc
    rw [List.take_append_eq_append_take] at hc
    rcases List.mem_append.mp hc with hc | hc
    · exact hk c hc
    · have := List.eq_of_mem_replicate (List.mem_of_mem_take hc)
      omega
  rw [utf8Encode_length_ascii hmem]
  simp only [List.length_take, List.length_append, List.length_replicate]
  omega

/-! ## Backend and manager lemmas -/

theorem retrieveData_file (k : List Nat) (r : Runtime) (st : ManagerState)
    (hty : getStorageType r = strBytes "encrypted-file") :
    retrieveData k (getStorageType r) r st = .ok (lookupA st.files k) := by
  unfold retrieveData
  rw [hty, if_pos rfl]

theorem retrieveData_db (k : List Nat) (r : Runtime) (st : ManagerState)
    (hty : getStorageType r = strBytes "database")
    (hdb : r.hasDatabaseAdapter = true) :
    retrieveData k (getStorageType r) r st = .ok (lookupA st.db k) := by
  unfold retrieveData
  rw [hty, if_neg (by decide), if_pos rfl, hdb]
  simp

theorem saveAuthState_file (C : AesCbc) (r : Runtime) (key : List Nat)
    (a : AuthState) (iv : List Nat) (st : ManagerState)
    (hty : getStorageType r = strBytes "encrypted-file")
    (hkey : (normalizeKey (getKeySetting r)).length = 32)
    (hiv : iv.length = 16) :
    saveAuthState C r key a iv st =
      .ok ⟨insertA st.authCache key a,
           insertA st.files key
             (envelopeOf C (getKeySetting r) iv (serializeAuthState a)),
           st.db⟩ := by
  unfold saveAuthState
  rw [encryptData_eq_ok C _ _ _ hkey hiv]
  unfold storeData
  rw [hty]
  simp

theorem saveAuthState_db (C : AesCbc) (r : Runtime) (key : List Nat)
    (a : AuthState) (iv : List Nat) (st : ManagerState)
    (hty : getStorageType r = strBytes "database")
    (hdb : r.hasDatabaseAdapter = true)
    (hkey : (normalizeKey (getKeySetting r)).length = 32)
    (hiv : iv.length = 16) :
    saveAuthState C r key a iv st =
      .ok ⟨insertA st.authCache key a, st.files,
           insertA st.db key
             (envelopeOf C (getKeySetting r) iv (serializeAuthState a))⟩ := by
  unfold saveAuthState
  rw [encryptData_eq_ok C _ _ _ hkey hiv]
  simp [storeData, hty, hdb,
    show strBytes "database" ≠ strBytes "encrypted-file" from by decide]

theorem saveAuthState_error_state (C : AesCbc) (r : Runtime) (key : List Nat)
    (a : AuthState) (iv : List Nat) (st : ManagerState) (e : JsError)
    (st1 : ManagerState)
    (h : saveAuthState C r key a iv st = .error (e, st1)) :
    st1 = { st with authCache := insertA st.authCache key a } := by
  unfold saveAuthState at h
  simp only [] at h
  cases henc : encryptData C (serializeAuthState a) (getKeySetting r) iv with
  | error e2 =>
    rw [henc] at h
    simp only [Except.error.injEq, Prod.mk.injEq] at h
    exact h.2.symm
  | ok blob =>
    rw [henc] at h
    simp only [] at h
    cases hst : storeData key (some blob) (getStorageType r) r
        { st with authCache := insertA st.authCache key a } with
    | error e2 =>
      rw [hst] at h
      simp only [Except.error.injEq, Prod.mk.injEq] at h
      exact h.2.symm
    | ok st2 =>
      rw [hst] at h
      simp at h

theorem loadAuthState_cache_miss (C : AesCbc) (r : Runtime) (now : Int)
    (key iv : List Nat) (st : ManagerState)
    (hcache : lookupA st.authCache key = none) :
    loadAuthState C r now key iv st = loadFromStorage C r now key iv st := by
  unfold loadAuthState
  rw [hcache]

theorem loadAuthState_cache_invalid (C : AesCbc) (r : Runtime) (now : Int)
    (key iv : List Nat) (st : ManagerState) (a : AuthState)
    (hcache : lookupA st.authCache key = some a)
    (hexp : isValid now a = false) :
    loadAuthState C r now key iv st = loadFromStorage C r now key iv st := by
  unfold loadAuthState
  rw [hcache]
  simp [hexp]

theorem loadFromStorage_found (C : AesCbc) (r : Runtime) (now : Int)
    (key iv : List Nat) (st : ManagerState) (blob : List Nat) (a : AuthState)
    (hretr : retrieveData key (getStorageType r) r st = .ok (some blob))
    (hdec : decryptData C blob (getKeySetting r) = .ok (serializeAuthState a))
    (hvalid : now < a.expiresAt) :
    loadFromStorage C r now key iv st =
      .ok (some a, { st with authCache := insertA st.authCache key a }) := by
  have h1 : isValid now a = true := by
    simp [isValid]
    exact hvalid
  unfold loadFromStorage
  rw [hretr]
  simp [hdec, parseAuthState_serialize, h1]

theorem loadFromStorage_refresh (C : AesCbc) (r : Runtime) (now : Int)
    (key iv : List Nat) (st : ManagerState) (blob : List Nat) (a : AuthState)
    (rt : List Nat)
    (hretr : retrieveData key (getStorageType r) r st = .ok (some blob))
    (hdec : decryptData C blob (getKeySetting r) = .ok (serializeAuthState a))
    (hexp : a.expiresAt ≤ now)
    (hrt : a.refreshToken = some rt) (hrtne : rt ≠ [])
    (har : autoRefreshOn r = true) :
    loadFromStorage C r now key iv st =
      .ok (refreshAuthState C r now key a iv st) := by
  have h1 : isValid now a = false := by
    simp [isValid]
    omega
  have h2 : rt.isEmpty = false := by
    simp [List.isEmpty_iff]
    exact hrtne
  unfold loadFromStorage
  rw [hretr]
  simp [hdec, parseAuthState_serialize, h1, hrt, h2, har]

/-! ## Claims -/

/-- Claim C1, corrected.  During `loadAuthState`, a decrypted payload that
does not parse as a record is caught and downgraded to "no usable
session" (`ok none`, state untouched) — but a failure of `decryptData`
itself is NOT caught: it propagates to the caller as a thrown error,
because the decryption call sits above the `try` block in the source.
The conclusion describes both outcomes of the cipher layer. -/
theorem c1_load_internal_failure_behavior (C : AesCbc) (r : Runtime)
    (now : Int) (key iv blob : List Nat) (st : ManagerState)
    (hcache : ∀ c, lookupA st.authCache key = some c → isValid now c = false)
    (hretr : retrieveData key (getStorageType r) r st = .ok (some blob))
    (hbad : ∀ p, decryptData C blob (getKeySetting r) = .ok p →
      parseAuthState p = none) :
    loadAuthState C r now key iv st =
      match decryptData C blob (getKeySetting r) with
      | .error e => .error (.crypto e, st)
      | .ok _ => .ok (none, st) := by
  have hload : loadAuthState C r now key iv st =
      loadFromStorage C r now key iv st := by
    cases hc : lookupA st.authCache key with
    | none => exact loadAuthState_cache_miss C r now key iv st hc
    | some c =>
      exact loadAuthState_cache_invalid C r now key iv st c hc (hcache c hc)
  rw [hload]
  unfold loadFromStorage
  rw [hretr]
  cases hdec : decryptData C blob (getKeySetting r) with
  | error e => simp [hdec]
  | ok plain =>
    have hp := hbad plain hdec
    simp [hdec, hp]

/-- Witness for C1: on a blob that decrypts under `idCipher` but whose
payload has a stray trailing byte (malformed record), `loadAuthState`
returns absent without raising. -/
theorem c1_load_internal_failure_behavior_witness :
    loadAuthState idCipher rtPlain 1 sampleKey sampleIv
      ⟨[], [(sampleKey, blobBadJson)], []⟩ =
      .ok (none, ⟨[], [(sampleKey, blobBadJson)], []⟩) := by
  have h := c1_load_internal_failure_behavior idCipher rtPlain 1 sampleKey
    sampleIv blobBadJson ⟨[], [(sampleKey, blobBadJson)], []⟩
    (fun c hc => Option.noConfusion hc) (by decide)
    (fun p hp => by
      have hd : decryptData idCipher blobBadJson (getKeySetting rtPlain) =
          .ok (serializeAuthState recValid ++ [0]) := by decide
      rw [hd] at hp
      injection hp with hp
      subst hp
      decide)
  rw [h]
  decide

/-- Counterexample to claim C1 as stated: with the default configuration
and a stored blob whose decryption fails (its IV field is not valid hex),
`loadAuthState` raises the error to its caller instead of returning
absent. -/
theorem c1_load_decrypt_error_propagates_cex :
    loadAuthState idCipher rtPlain 1 sampleKey sampleIv
      ⟨[], [(sampleKey, strBytes "garbage")], []⟩ =
      .error (.crypto .invalidIv, ⟨[], [(sampleKey, strBytes "garbage")], []⟩) := by
  decide

/-- Claim C2, corrected.  For every non-empty byte plaintext and every key
whose normalized form is exactly 32 bytes (in particular every ASCII
key), decryption inverts encryption under the same key, for any correct
block transform and any 16-byte IV.  (The restriction on the key is
forced: a key with non-ASCII characters can normalize to more than 32
bytes and make `encryptData` itself throw, see the counterexample.) -/
theorem c2_encrypt_decrypt_roundtrip (C : AesCbc) (p key iv : List Nat)
    (_hne : p ≠ []) (hp : wfBytes p = true)
    (hk : (normalizeKey key).length = 32)
    (hiv : iv.length = 16) (hivb : wfBytes iv = true) :
    encThenDec C p key iv = .ok p := by
  obtain ⟨henc, hdec⟩ := encryptData_ok_decryptData C p key iv
    (wfBytes_iff.mp hp) hk hiv (wfBytes_iff.mp hivb)
  unfold encThenDec
  rw [henc]
  exact hdec

/-- Witness for C2 at a concrete non-empty plaintext and ASCII key. -/
theorem c2_encrypt_decrypt_roundtrip_witness :
    [104] ≠ ([] : List Nat) ∧
    encThenDec idCipher [104] sampleKey sampleIv = .ok [104] :=
  ⟨by decide, c2_encrypt_decrypt_roundtrip idCipher [104] sampleKey sampleIv
    (by decide) (by decide) (by decide) (by decide) (by decide)⟩

/-- Counterexample to claim C2 as stated ("for every key K"): for the
non-empty plaintext `[104]` and the key made of two `é` characters,
`encrypt` throws (the normalized key is 34 bytes), so
`decrypt(encrypt(P, K), K)` does not return `P`. -/
theorem c2_roundtrip_fails_nonascii_key_cex :
    encThenDec idCipher [104] [233, 233] sampleIv = .error .invalidKeyLength ∧
    encThenDec idCipher [104] [233, 233] sampleIv ≠ .ok [104] := by
  decide

/-- Claim C8, corrected.  Key normalization yields exactly 32 bytes — and
`encryptData` therefore succeeds on every plaintext — for every key whose
first 32 characters are single-byte (ASCII) characters; but NOT for every
key: `padEnd`/`slice` count UTF-16 characters while `createCipheriv`
counts bytes, so a key with a non-ASCII character normalizes to more than
32 bytes and makes `encryptData` throw (see the counterexample). -/
theorem c8_key_normalization_ascii (key iv : List Nat)
    (hk : ∀ c ∈ key.take 32, c < 128) (hiv : iv.length = 16) :
    (normalizeKey key).length = 32 ∧
    ∀ (C : AesCbc) (p : List Nat),
      encryptData C p key iv = .ok (envelopeOf C key iv p) := by
  have h := normalizeKey_length_ascii hk
  exact ⟨h, fun C p => encryptData_eq_ok C p key iv h hiv⟩

/-- Witness for C8 at a concrete ASCII key shorter than 32 characters. -/
theorem c8_key_normalization_ascii_witness :
    (normalizeKey (strBytes "secret")).length = 32 ∧
    encryptData idCipher [104] (strBytes "secret") sampleIv =
      .ok (envelopeOf idCipher (strBytes "secret") sampleIv [104]) := by
  have h := c8_key_normalization_ascii (strBytes "secret") sampleIv
    (by decide) (by decide)
  exact ⟨h.1, h.2 idCipher [104]⟩

/-- Counterexample to claim C8 as stated: the one-character key `é`
(code point 233) normalizes to 33 bytes, and `encryptData` fails on it. -/
theorem c8_nonascii_key_breaks_normalization_cex :
    (normalizeKey [233]).length = 33 ∧
    encryptData idCipher [104] [233] sampleIv = .error .invalidKeyLength := by
  decide

/-- Claim C9 (confirmed): `isValid` returns true exactly when the current
time is strictly below the record's `expiresAt`.  In the embedding it is
a pure function of its two arguments (no state parameter), so it has no
side effects and needs no loaded session. -/
theorem c9_isValid_iff (now : Int) (a : AuthState) :
    isValid now a = true ↔ now < a.expiresAt := by
  simp [isValid]

/-- Claim C3, corrected.  For the file backend and for the database
backend with an adapter, saving a well-formed record, clearing the
in-memory cache, then loading the same key returns a record equal to the
saved one — provided the record is still valid at load time.  The memory
backend never persists (see the counterexample), and an expired record
does not round-trip either. -/
theorem c3_save_clear_load_roundtrip (C : AesCbc) (r : Runtime) (now : Int)
    (k : List Nat) (a : AuthState) (iv : List Nat) (st st1 : ManagerState)
    (hback : getStorageType r = strBytes "encrypted-file" ∨
      (getStorageType r = strBytes "database" ∧ r.hasDatabaseAdapter = true))
    (hwf : wfAuthState a = true)
    (hkey : (normalizeKey (getKeySetting r)).length = 32)
    (hiv : iv.length = 16) (hivb : wfBytes iv = true)
    (hvalid : now < a.expiresAt)
    (hsave : saveAuthState C r k a iv st = .ok st1) :
    loadAuthState C r now k iv { st1 with authCache := [] } =
      .ok (some a, { st1 with authCache := [(k, a)] }) := by
  have hdec := decryptData_envelopeOf C (serializeAuthState a)
    (getKeySetting r) iv (serializeAuthState_bytes hwf) hkey hiv
    (wfBytes_iff.mp hivb)
  rcases hback with hty | ⟨hty, hdb⟩
  · rw [saveAuthState_file C r k a iv st hty hkey hiv] at hsave
    cases Except.ok.inj hsave
    show loadAuthState C r now k iv
      ⟨[], insertA st.files k
          (envelopeOf C (getKeySetting r) iv (serializeAuthState a)),
        st.db⟩ =
      .ok (some a,
        ⟨[(k, a)], insertA st.files k
            (envelopeOf C (getKeySetting r) iv (serializeAuthState a)),
          st.db⟩)
    have hretr : retrieveData k (getStorageType r) r
        ⟨[], insertA st.files k
            (envelopeOf C (getKeySetting r) iv (serializeAuthState a)),
          st.db⟩ =
        .ok (some (envelopeOf C (getKeySetting r) iv
          (serializeAuthState a))) := by
      rw [retrieveData_file k r _ hty]
      simp [lookupA_insertA_self]
    rw [loadAuthState_cache_miss C r now k iv
        ⟨[], insertA st.files k
            (envelopeOf C (getKeySetting r) iv (serializeAuthState a)),
          st.db⟩ rfl,
      loadFromStorage_found C r now k iv _ _ a hretr hdec hvalid]
    rfl
  · rw [saveAuthState_db C r k a iv st hty hdb hkey hiv] at hsave
    cases Except.ok.inj hsave
    show loadAuthState C r now k iv
      ⟨[], st.files, insertA st.db k
          (envelopeOf C (getKeySetting r) iv (serializeAuthState a))⟩ =
      .ok (some a,
        ⟨[(k, a)], st.files, insertA st.db k
            (envelopeOf C (getKeySetting r) iv (serializeAuthState a))⟩)
    have hretr : retrieveData k (getStorageType r) r
        ⟨[], st.files, insertA st.db k
            (envelopeOf C (getKeySetting r) iv (serializeAuthState a))⟩ =
        .ok (some (envelopeOf C (getKeySetting r) iv
          (serializeAuthState a))) := by
      rw [retrieveData_db k r _ hty hdb]
      simp [lookupA_insertA_self]
    rw [loadAuthState_cache_miss C r now k iv
        ⟨[], st.files, insertA st.db k
            (envelopeOf C (getKeySetting r) iv (serializeAuthState a))⟩ rfl,
      loadFromStorage_found C r now k iv _ _ a hretr hdec hvalid]
    rfl

/-- Witness for C3: a concrete save/clear/load round trip on the default
(file) backend. -/
theorem c3_save_clear_load_roundtrip_witness :
    loadAuthState idCipher rtPlain 1 sampleKey sampleIv
      ⟨[], [(sampleKey, envelopeOf idCipher (getKeySetting rtPlain) sampleIv
            (serializeAuthState recValid))], []⟩ =
      .ok (some recValid,
        ⟨[(sampleKey, recValid)],
         [(sampleKey, envelopeOf idCipher (getKeySetting rtPlain) sampleIv
            (serializeAuthState recValid))], []⟩) :=
  c3_save_clear_load_roundtrip idCipher rtPlain 1 sampleKey recValid sampleIv
    emptyState
    ⟨[(sampleKey, recValid)],
     [(sampleKey, envelopeOf idCipher (getKeySetting rtPlain) sampleIv
        (serializeAuthState recValid))], []⟩
    (Or.inl (by decide)) (by decide) (by decide) (by decide) (by decide)
    (by decide) (by decide)

/-- Counterexample to claim C3 as stated ("for every configured backend
... or memory"): on the memory backend a save stores nothing, so after
clearing the cache the load returns absent, not a record equal to the
saved (still valid) one. -/
theorem c3_memory_backend_no_roundtrip_cex :
    saveAuthState idCipher rtMemory sampleKey recValid sampleIv emptyState =
      .ok ⟨[(sampleKey, recValid)], [], []⟩ ∧
    loadAuthState idCipher rtMemory 1 sampleKey sampleIv emptyState =
      .ok (none, emptyState) := by
  decide

/-- Claim C4 (confirmed, under the spec's configuration contract that the
TTL setting is a positive integer).  Loading a key whose stored blob
decrypts to an expired record carrying a non-empty refresh token, with
the `autoRefresh` setting holding the boolean `true`, returns a
re-stamped record with `expiresAt > now`, `timestamp = now`, and the
same `walletPublicKey`, `permissions` and `network` as the stored
record — and the re-stamped record is persisted through `saveAuthState`:
the backend afterwards holds its encryption envelope. -/
theorem c4_load_refreshes_expired (C : AesCbc) (r : Runtime) (now : Int)
    (k iv blob : List Nat) (st st2 : ManagerState) (a : AuthState)
    (rt : List Nat)
    (hback : getStorageType r = strBytes "encrypted-file" ∨
      (getStorageType r = strBytes "database" ∧ r.hasDatabaseAdapter = true))
    (hcache : ∀ c, lookupA st.authCache k = some c → isValid now c = false)
    (hretr : retrieveData k (getStorageType r) r st = .ok (some blob))
    (hdec : decryptData C blob (getKeySetting r) = .ok (serializeAuthState a))
    (hexp : a.expiresAt ≤ now)
    (hrt : a.refreshToken = some rt) (hrtne : rt ≠ [])
    (har : autoRefreshOn r = true)
    (httl : 0 < ttlOf r)
    (hkey : (normalizeKey (getKeySetting r)).length = 32)
    (hiv : iv.length = 16)
    (hsave : saveAuthState C r k (refreshedRecord r now a) iv st = .ok st2) :
    loadAuthState C r now k iv st =
      .ok (some (refreshedRecord r now a), st2) ∧
    now < (refreshedRecord r now a).expiresAt ∧
    (refreshedRecord r now a).walletPublicKey = a.walletPublicKey ∧
    (refreshedRecord r now a).permissions = a.permissions ∧
    (refreshedRecord r now a).network = a.network ∧
    (refreshedRecord r now a).timestamp = now ∧
    retrieveData k (getStorageType r) r st2 =
      .ok (some (envelopeOf C (getKeySetting r) iv
        (serializeAuthState (refreshedRecord r now a)))) := by
  refine ⟨?_, ?_, rfl, rfl, rfl, rfl, ?_⟩
  · have hload : loadAuthState C r now k iv st =
        loadFromStorage C r now k iv st := by
      cases hc : lookupA st.authCache k with
      | none => exact loadAuthState_cache_miss C r now k iv st hc
      | some c =>
        exact loadAuthState_cache_invalid C r now k iv st c hc (hcache c hc)
    rw [hload, loadFromStorage_refresh C r now k iv st blob a rt hretr hdec
      hexp hrt hrtne har]
    simp [refreshAuthState, hsave]
  · have hm := mul_pos httl (show (0:Int) < 1000 by norm_num)
    simp only [refreshedRecord]
    omega
  · rcases hback with hty | ⟨hty, hdb⟩
    · rw [saveAuthState_file C r k (refreshedRecord r now a) iv st hty hkey
        hiv] at hsave
      cases Except.ok.inj hsave
      rw [retrieveData_file k r _ hty]
      simp [lookupA_insertA_self]
    · rw [saveAuthState_db C r k (refreshedRecord r now a) iv st hty hdb hkey
        hiv] at hsave
      cases Except.ok.inj hsave
      rw [retrieveData_db k r _ hty hdb]
      simp [lookupA_insertA_self]

/-- Witness for C4: a concrete expired record with refresh token on the
file backend, `autoRefresh` set to the boolean `true`, TTL one second. -/
theorem c4_load_refreshes_expired_witness :
    loadAuthState idCipher rtAuto 1 sampleKey sampleIv
      ⟨[], [(sampleKey, plainEnv recExpired)], []⟩ =
      .ok (some (refreshedRecord rtAuto 1 recExpired),
        ⟨[(sampleKey, refreshedRecord rtAuto 1 recExpired)],
         [(sampleKey, envelopeOf idCipher (getKeySetting rtAuto) sampleIv
            (serializeAuthState (refreshedRecord rtAuto 1 recExpired)))],
         []⟩) :=
  (c4_load_refreshes_expired idCipher rtAuto 1 sampleKey sampleIv
    (plainEnv recExpired) ⟨[], [(sampleKey, plainEnv recExpired)], []⟩
    ⟨[(sampleKey, refreshedRecord rtAuto 1 recExpired)],
     [(sampleKey, envelopeOf idCipher (getKeySetting rtAuto) sampleIv
        (serializeAuthState (refreshedRecord rtAuto 1 recExpired)))], []⟩
    recExpired [116]
    (Or.inl (by decide)) (fun c hc => Option.noConfusion hc) (by decide)
    (by decide) (by decide) (by decide) (by decide) (by decide) (by decide)
    (by decide) (by decide) (by decide)).1

/-- Claim C5, corrected.  An unrecognized storage-backend identifier is
not rejected at configuration time: `initialize` performs no validation
and always succeeds, and instead each `storeData` / `retrieveData` call
fails lazily with the `Unsupported storage type` error. -/
theorem c5_unsupported_backend_lazy (r : Runtime) (st : ManagerState)
    (k d ty : List Nat)
    (h1 : ty ≠ strBytes "encrypted-file") (h2 : ty ≠ strBytes "database")
    (h3 : ty ≠ strBytes "memory") :
    initService r = .ok r ∧
    storeData k (some d) ty r st = .error .unsupportedStorageType ∧
    retrieveData k ty r st = .error .unsupportedStorageType := by
  refine ⟨rfl, ?_, ?_⟩
  · unfold storeData
    rw [if_neg h1, if_neg h2, if_neg h3]
  · unfold retrieveData
    rw [if_neg h1, if_neg h2, if_neg h3]

/-- Witness for C5 at the concrete identifier `"bogus"`. -/
theorem c5_unsupported_backend_lazy_witness :
    initService rtBogus = .ok rtBogus ∧
    storeData sampleKey (some [1]) (strBytes "bogus") rtBogus emptyState =
      .error .unsupportedStorageType ∧
    retrieveData sampleKey (strBytes "bogus") rtBogus emptyState =
      .error .unsupportedStorageType :=
  c5_unsupported_backend_lazy rtBogus emptyState sampleKey [1]
    (strBytes "bogus") (by decide) (by decide) (by decide)

/-- Counterexample to claim C5 as stated: constructing the manager with
the unrecognized backend identifier `"bogus"` succeeds (`initialize`
raises nothing), and the failure only surfaces on the first store
call — i.e. lazily, not at configuration time. -/
theorem c5_no_config_time_failure_cex :
    initService rtBogus = .ok rtBogus ∧
    storeData sampleKey (some [1]) (getStorageType rtBogus) rtBogus
      emptyState = .error .unsupportedStorageType := by
  decide

/-- Claim C6, corrected.  When the save inside `refreshAuthState` fails,
the failure is NOT propagated to the caller: the surrounding `catch`
swallows it and refresh returns absent.  Moreover the in-memory cache is
left inconsistent with the backend: `saveAuthState` overwrites the cache
entry before attempting the backend write, so after the failure the
cache holds the refreshed record while the backing stores are
unchanged. -/
theorem c6_refresh_save_failure_swallowed (C : AesCbc) (r : Runtime)
    (now : Int) (key : List Nat) (a : AuthState) (iv : List Nat)
    (st st1 : ManagerState) (e : JsError)
    (hsave : saveAuthState C r key (refreshedRecord r now a) iv st =
      .error (e, st1)) :
    refreshAuthState C r now key a iv st = (none, st1) ∧
    st1.authCache = insertA st.authCache key (refreshedRecord r now a) ∧
    st1.files = st.files ∧ st1.db = st.db := by
  have hst := saveAuthState_error_state C r key (refreshedRecord r now a) iv
    st e st1 hsave
  refine ⟨?_, ?_, ?_, ?_⟩
  · simp [refreshAuthState, hsave]
  · rw [hst]
  · rw [hst]
  · rw [hst]

/-- Witness for C6: refreshing on the database backend without an
adapter — the backend write throws, refresh returns absent, and the
cache holds the unpersisted refreshed record. -/
theorem c6_refresh_save_failure_swallowed_witness :
    refreshAuthState idCipher rtDbNoAdapter 1 sampleKey recExpired sampleIv
      emptyState =
      (none, ⟨[(sampleKey, refreshedRecord rtDbNoAdapter 1 recExpired)],
        [], []⟩) ∧
    (⟨[(sampleKey, refreshedRecord rtDbNoAdapter 1 recExpired)], [], []⟩ :
        ManagerState).authCache =
      insertA emptyState.authCache sampleKey
        (refreshedRecord rtDbNoAdapter 1 recExpired) ∧
    (⟨[(sampleKey, refreshedRecord rtDbNoAdapter 1 recExpired)], [], []⟩ :
        ManagerState).files = emptyState.files ∧
    (⟨[(sampleKey, refreshedRecord rtDbNoAdapter 1 recExpired)], [], []⟩ :
        ManagerState).db = emptyState.db :=
  c6_refresh_save_failure_swallowed idCipher rtDbNoAdapter 1 sampleKey
    recExpired sampleIv emptyState
    ⟨[(sampleKey, refreshedRecord rtDbNoAdapter 1 recExpired)], [], []⟩
    (.storage .noDatabaseAdapter) (by decide)

/-- Counterexample to claim C6 as stated: on a concrete failing save
(database backend, no adapter) `refreshAuthState` returns absent instead
of propagating a `RefreshFailed` error, and it leaves a state whose
cache holds the refreshed record while the database table is empty —
the cache is not consistent with the backend. -/
theorem c6_refresh_failure_inconsistent_cache_cex :
    refreshAuthState idCipher rtDbNoAdapter 1 sampleKey recExpired sampleIv
      emptyState =
      (none, ⟨[(sampleKey, refreshedRecord rtDbNoAdapter 1 recExpired)],
        [], []⟩) ∧
    lookupA (⟨[(sampleKey, refreshedRecord rtDbNoAdapter 1 recExpired)],
        [], []⟩ : ManagerState).db sampleKey = none := by
  decide

/-- Claim C7, corrected.  An absent `autoRefresh` setting does NOT default
to true: the source compares the setting against the boolean `true` with
`===`, so with the setting absent (or holding anything other than the
boolean `true`) a load of an expired record carrying a refresh token
returns absent without invoking a refresh, leaving the state
unchanged. -/
theorem c7_auto_refresh_defaults_off (C : AesCbc) (r : Runtime) (now : Int)
    (k iv blob : List Nat) (st : ManagerState) (a : AuthState)
    (har : r.autoRefresh ≠ some true)
    (hcache : ∀ c, lookupA st.authCache k = some c → isValid now c = false)
    (hretr : retrieveData k (getStorageType r) r st = .ok (some blob))
    (hdec : decryptData C blob (getKeySetting r) = .ok (serializeAuthState a))
    (hexp : a.expiresAt ≤ now) :
    loadAuthState C r now k iv st = .ok (none, st) := by
  have h1 : isValid now a = false := by
    simp [isValid]
    omega
  have h2 : autoRefreshOn r = false := by
    simp [autoRefreshOn]
    exact har
  have hload : loadAuthState C r now k iv st =
      loadFromStorage C r now k iv st := by
    cases hc : lookupA st.authCache k with
    | none => exact loadAuthState_cache_miss C r now k iv st hc
    | some c =>
      exact loadAuthState_cache_invalid C r now k iv st c hc (hcache c hc)
  rw [hload]
  unfold loadFromStorage
  rw [hretr]
  simp [hdec, parseAuthState_serialize, h1, h2]

/-- Witness for C7: concrete expired record with a refresh token, stored
on the file backend, `autoRefresh` setting absent — the load returns
absent and refreshes nothing. -/
theorem c7_auto_refresh_defaults_off_witness :
    loadAuthState idCipher rtPlain 1 sampleKey sampleIv
      ⟨[], [(sampleKey, plainEnv recExpired)], []⟩ =
      .ok (none, ⟨[], [(sampleKey, plainEnv recExpired)], []⟩) :=
  c7_auto_refresh_defaults_off idCipher rtPlain 1 sampleKey sampleIv
    (plainEnv recExpired) ⟨[], [(sampleKey, plainEnv recExpired)], []⟩
    recExpired (by decide) (fun c hc => Option.noConfusion hc) (by decide)
    (by decide) (by decide)

/-- Counterexample to claim C7 as stated: with the same expired record
and refresh token stored, a runtime whose `autoRefresh` setting is
absent loads to absent, while a runtime whose setting is the boolean
`true` does not — absence does not behave like `true`. -/
theorem c7_absent_setting_differs_cex :
    loadAuthState idCipher rtPlain 1 sampleKey sampleIv
      ⟨[], [(sampleKey, plainEnv recExpired)], []⟩ =
      .ok (none, ⟨[], [(sampleKey, plainEnv recExpired)], []⟩) ∧
    loadAuthState idCipher rtAuto 1 sampleKey sampleIv
      ⟨[], [(sampleKey, plainEnv recExpired)], []⟩ ≠
      .ok (none, ⟨[], [(sampleKey, plainEnv recExpired)], []⟩) := by
  decide

/-- Claim C10 (confirmed): when the in-memory cache holds an expired
record for the key — even one carrying a refresh token — and the backend
returns absent for it, `loadAuthState` returns absent with the state
completely unchanged: the expired cache entry stays in place, nothing is
saved, and no refresh is attempted (the refresh branch is only reachable
from a record decoded from the backend). -/
theorem c10_cached_expired_backend_absent (C : AesCbc) (r : Runtime)
    (now : Int) (k iv : List Nat) (st : ManagerState) (a : AuthState)
    (hcache : lookupA st.authCache k = some a)
    (hexp : a.expiresAt ≤ now)
    (hretr : retrieveData k (getStorageType r) r st = .ok none) :
    loadAuthState C r now k iv st = .ok (none, st) := by
  have h1 : isValid now a = false := by
    simp [isValid]
    omega
  rw [loadAuthState_cache_invalid C r now k iv st a hcache h1]
  unfold loadFromStorage
  rw [hretr]

/-- Witness for C10: cache holds the expired record (with refresh token),
memory backend returns absent, `autoRefresh` even set to `true` — the
load returns absent and the cache entry survives untouched. -/
theorem c10_cached_expired_backend_absent_witness :
    loadAuthState idCipher rtMemory 1 sampleKey sampleIv
      ⟨[(sampleKey, recExpired)], [], []⟩ =
      .ok (none, ⟨[(sampleKey, recExpired)], [], []⟩) :=
  c10_cached_expired_backend_absent idCipher rtMemory 1 sampleKey sampleIv
    ⟨[(sampleKey, recExpired)], [], []⟩ recExpired (by decide) (by decide)
    (by decide)
